import Mathlib

/-!
Verification of the DevNet simulated CI/CD pipeline dashboard
(`devops_monitor.py`) against its natural-language specification.

The development shallowly embeds the parts of the source that the claims
are about:

* the run engine `_simulate_pipeline` (modelled as `simulate_pipeline`,
  a pure function from a run, a failure-roll oracle and the terminal
  clock readings to the final run state plus the ordered trace of its
  externally visible effects: snapshot persists, log writes, history
  appends);
* the current-runs snapshot store `_save_current_snapshot` (modelled as
  `save_current_snapshot`, a pure list transformer);
* the job-to-steps selection of `api_run` (`pipelineSteps`, `stepsFor`,
  `jobFromRequest`);
* the stats aggregator `_calc_stats` (modelled as `calc_stats` over
  history entries whose ISO-8601 UTC timestamps are represented as
  integer epoch seconds, which is faithful for the comparisons and
  subtractions the source performs on parsed datetimes; Python `int()`
  truncation is `pyInt` and Python `round(x, 1)` banker's rounding is
  `pyRound1`).

Definitions follow the source; definitions whose names start with `spec`
restate the specification's own wording and are compared against the
source-derived ones in the theorems.
-/

/-- Run record, as built by `api_run` and mutated by `_simulate_pipeline`.
`started_at`/`finished_at` are kept as opaque strings: the engine only
stores them, never inspects them. -/
structure Run where
  id : String
  job : String
  status : String
  steps : List String
  current_step : Option String
  started_at : String
  finished_at : Option String
  duration_s : Option Int
deriving DecidableEq, Repr

def statusRunning : String := "running"
def statusSuccess : String := "success"
def statusFailed : String := "failed"

/-- The kind of a log line written by `_write_log` during a run.  Log
content (timestamps, randomized counts) is cosmetic; what matters for the
claims is which step each line belongs to. -/
inductive LogKind where
  | runStarted : LogKind
  | stepStarted : String → LogKind
  | stepOutput : String → LogKind
  | stepOK : String → LogKind
  | stepFailed : String → LogKind
  | runFinished : String → LogKind
deriving DecidableEq, Repr

/-- An externally visible effect of the engine, in program order. -/
inductive Event where
  | snapshot : Run → Event
  | log : String → LogKind → Event
  | histAppend : Run → Event
deriving DecidableEq, Repr

/-- The terminal-transition mutation of `_simulate_pipeline`: set the
status, `finished_at = now`, `duration_s = elapsed`, clear
`current_step`. -/
def finishRun (run : Run) (st : String) (now : String) (elapsed : Int) : Run :=
  { run with status := st, finished_at := some now, duration_s := some elapsed,
             current_step := none }

/-- The step loop of `_simulate_pipeline`.  `pending` is the remaining
step list, `k` the index of its head in the full step sequence, and
`rolls j` the outcome of the failure roll `random.random() < fail_prob`
at step `j`.  `now` and `elapsed` are the wall-clock readings observed at
the terminal transition (time is otherwise not modelled). -/
def simSteps (run : Run) (pending : List String) (k : Nat) (rolls : Nat → Bool)
    (now : String) (elapsed : Int) : Run × List Event :=
  match pending with
  | [] =>
    let r := finishRun run statusSuccess now elapsed
    (r, [Event.log run.id (LogKind.runFinished statusSuccess), Event.snapshot r,
         Event.histAppend r])
  | s :: rest =>
    let r1 := { run with current_step := some s }
    let pre : List Event :=
      [Event.snapshot r1, Event.log run.id (LogKind.stepStarted s),
       Event.log run.id (LogKind.stepOutput s)]
    if rolls k then
      let r2 := finishRun r1 statusFailed now elapsed
      (r2, pre ++ [Event.log run.id (LogKind.stepFailed s),
                   Event.log run.id (LogKind.runFinished statusFailed),
                   Event.snapshot r2, Event.histAppend r2])
    else
      let rec2 := simSteps r1 rest (k + 1) rolls now elapsed
      (rec2.1, pre ++ [Event.log run.id (LogKind.stepOK s)] ++ rec2.2)

/-- `_simulate_pipeline`: the run-started log line, then the step loop. -/
def simulate_pipeline (run : Run) (rolls : Nat → Bool) (now : String)
    (elapsed : Int) : Run × List Event :=
  ((simSteps run run.steps 0 rolls now elapsed).1,
   Event.log run.id LogKind.runStarted
     :: (simSteps run run.steps 0 rolls now elapsed).2)

/-- `_save_current_snapshot`: drop any entry with the run's id, insert the
run at the front, truncate to 100 entries. -/
def save_current_snapshot (run : Run) (curr : List Run) : List Run :=
  (run :: curr.filter fun x => x.id ≠ run.id).take 100

/-- The states the current-runs list can be in: it starts empty (initial
file absence, explicit reset, or the bootstrap write) and is only ever
written through `_save_current_snapshot`. -/
inductive ReachableCurr : List Run → Prop where
  | empty : ReachableCurr []
  | upsert : ∀ (run : Run) (curr : List Run), ReachableCurr curr →
      ReachableCurr (save_current_snapshot run curr)

/-- `PIPELINE`: the static job catalog. -/
def pipelineSteps (job : String) : Option (List String) :=
  if job = "app-ci" then
    some ["checkout", "install-deps", "lint", "unit-tests", "build-artifact",
          "deploy-staging"]
  else if job = "api-ci" then
    some ["checkout", "install-deps", "unit-tests", "integration-tests",
          "security-scan", "docker-build", "deploy-prod"]
  else
    none

/-- The fallback step sequence used by `api_run` for unknown jobs. -/
def fallbackSteps : List String := ["checkout", "unit-tests", "deploy-staging"]

/-- `PIPELINE.get(job, fallback)` in `api_run`. -/
def stepsFor (job : String) : List String :=
  (pipelineSteps job).getD fallbackSteps

/-- The job-name extraction of `api_run`: `data = request.get_json(silent=True)
or {}` then `job = data.get("job") or "app-ci"`.  `none` is a missing or
unparsable body, `some none` a body without a `job` field, `some (some j)`
a body with `job` equal to `j`; Python `or` treats the empty string as
falsy. -/
def jobFromRequest (body : Option (Option String)) : String :=
  match body.getD none with
  | none => "app-ci"
  | some j => if j = "" then "app-ci" else j

/-- The step sequence `api_run` assigns to the new run for a request. -/
def apiRunSteps (body : Option (Option String)) : List String :=
  stepsFor (jobFromRequest body)

/-- The fields of a history entry that `_calc_stats` reads.  `finished_at`
is the parsed ISO-8601 UTC timestamp, represented as epoch seconds (the
source only compares and subtracts the parsed datetimes, so an integer
timeline is a faithful model); `none` models an absent or empty value
(Python truthiness of `h.get("finished_at")`). -/
structure HistEntry where
  job : String
  status : String
  finished_at : Option Int
  duration_s : Option Int
deriving DecidableEq, Repr

/-- Python `int()` applied to an exact quotient: truncation toward zero. -/
def pyInt (q : ℚ) : ℤ := Int.tdiv q.num q.den

/-- Python `round` on an exact value: round half to even.  `f` is the
floor of `q` (`q.den` is positive, so `Int.fdiv` on the numerator and
denominator is floor division) and `r2 = 2 * q.den * (q - f)`, so
`r2 < q.den` says the fractional part is below one half. -/
def pyRoundHalfEven (q : ℚ) : ℤ :=
  let f : ℤ := Int.fdiv q.num (q.den : ℤ)
  let r2 : ℤ := 2 * (q.num - f * (q.den : ℤ))
  if r2 < (q.den : ℤ) then f
  else if (q.den : ℤ) < r2 then f + 1
  else if f % 2 = 0 then f else f + 1

/-- Python `round(x, 1)`. -/
def pyRound1 (q : ℚ) : ℚ := (pyRoundHalfEven (10 * q) : ℚ) / 10

/-- The UTC calendar day of an epoch-seconds timestamp, modelling
`datetime.date()` equality. -/
def dayOf (t : Int) : Int := Int.ediv t 86400

/-- `finished = [h for h in hist if h.get("finished_at")]`. -/
def finishedOf (hist : List HistEntry) : List HistEntry :=
  hist.filter fun h => h.finished_at.isSome

/-- The `today` list of `_calc_stats`. -/
def todayOf (hist : List HistEntry) (now : Int) : List HistEntry :=
  (finishedOf hist).filter fun h => dayOf (h.finished_at.getD 0) = dayOf now

/-- The `last7` list of `_calc_stats`: finished entries with
`now - finished_at <= timedelta(days=7)`. -/
def last7Of (hist : List HistEntry) (now : Int) : List HistEntry :=
  (finishedOf hist).filter fun h => now - h.finished_at.getD 0 ≤ 7 * 86400

/-- `ds = [h.get("duration_s") for h in last7 if h.get("duration_s")]` —
the guard is Python truthiness, so it drops both absent and zero
durations. -/
def dsOf (hist : List HistEntry) (now : Int) : List Int :=
  (last7Of hist now).filterMap fun h =>
    match h.duration_s with
    | some d => if d = 0 then none else some d
    | none => none

/-- The `mttrs` list of `_calc_stats`: for each failed entry of `last7`,
the minutes to the earliest strictly-later-finishing successful entry of
the same job in `last7`, skipped when there is none. -/
def mttrsOf (hist : List HistEntry) (now : Int) : List ℚ :=
  (last7Of hist now).filterMap fun h =>
    if h.status = statusFailed then
      let tf := h.finished_at.getD 0
      let later := (last7Of hist now).filter fun x =>
        x.job = h.job && x.finished_at.isSome && decide (tf < x.finished_at.getD 0)
          && x.status = statusSuccess
      match (later.map fun x => x.finished_at.getD 0).min? with
      | some ts => some (((ts - tf : ℤ) : ℚ) / 60)
      | none => none
    else none

/-- The metrics record returned by `_calc_stats` (field names follow the
source's JSON keys; the spec calls `cfr` change_failure_rate and
`avg_duration` avg_duration_s). -/
structure StatsR where
  deploys_today : Nat
  success_rate : ℚ
  cfr : ℚ
  avg_duration : ℤ
  mttr_minutes : ℤ
deriving DecidableEq, Repr

/-- `_calc_stats`, over a history list and the current time `now`. -/
def calc_stats (hist : List HistEntry) (now : Int) : StatsR :=
  if hist = [] then
    { deploys_today := 0, success_rate := 0, cfr := 0, avg_duration := 0,
      mttr_minutes := 0 }
  else
    let total := (last7Of hist now).length
    let failures := ((last7Of hist now).filter fun h => h.status = statusFailed).length
    let successes := ((last7Of hist now).filter fun h => h.status = statusSuccess).length
    let ds := dsOf hist now
    let mttrs := mttrsOf hist now
    { deploys_today := (todayOf hist now).length
      success_rate := if total = 0 then 0
        else pyRound1 ((successes : ℚ) / (total : ℚ) * 100)
      cfr := if total = 0 then 0
        else pyRound1 ((failures : ℚ) / (total : ℚ) * 100)
      avg_duration := if ds = [] then 0
        else pyInt ((ds.sum : ℚ) / (ds.length : ℚ))
      mttr_minutes := if mttrs = [] then 0
        else pyInt (mttrs.sum / (mttrs.length : ℚ)) }

/-! Spec-side restatements, written from the specification's wording, to
be compared against the source-derived definitions above. -/

/-- The spec's 7-day window: history entries with a `finished_at` within
the last 7 days of `now` (inclusive). -/
def specWindow (hist : List HistEntry) (now : Int) : List HistEntry :=
  hist.filter fun h =>
    match h.finished_at with
    | some t => decide (now - t ≤ 7 * 86400)
    | none => false

/-- The spec's recovery times for `mttr_minutes`: for each failed run in
the window, the minutes from its finish to the earliest later-finishing
successful run of the same job within the window; a failed run with no
qualifying later success contributes nothing. -/
def specRecoveryMinutes (hist : List HistEntry) (now : Int) : List ℚ :=
  (specWindow hist now).filterMap fun h =>
    match h.finished_at with
    | some tf =>
      if h.status = statusFailed then
        let laterTimes := (specWindow hist now).filterMap fun x =>
          match x.finished_at with
          | some ts =>
            if x.job = h.job ∧ x.status = statusSuccess ∧ tf < ts then some ts
            else none
          | none => none
        match laterTimes.min? with
        | some ts => some (((ts - tf : ℤ) : ℚ) / 60)
        | none => none
      else none
    | none => none

/-- The durations the claim for `avg_duration_s` averages: every window
entry that has a `duration_s` value, zeros included. -/
def specDsInclZero (hist : List HistEntry) (now : Int) : List Int :=
  (specWindow hist now).filterMap fun h => h.duration_s

/-- The average claimed for `avg_duration_s`: integer mean over window
entries with a `duration_s` value, zeros included; 0 if none. -/
def specAvgInclZero (hist : List HistEntry) (now : Int) : ℤ :=
  if specDsInclZero hist now = [] then 0
  else pyInt (((specDsInclZero hist now).sum : ℚ)
    / ((specDsInclZero hist now).length : ℚ))

/-- The durations the source actually averages: window entries whose
`duration_s` is present and nonzero. -/
def specDsPresentNonzero (hist : List HistEntry) (now : Int) : List Int :=
  (specWindow hist now).filterMap fun h =>
    match h.duration_s with
    | some d => if d = 0 then none else some d
    | none => none

/-! Trace shapes of the run engine. -/

/-- The four events a non-failing step contributes: snapshot with the
step current, step-started and step-output log lines, step-OK line. -/
def stepCycle (run : Run) (s : String) : List Event :=
  [Event.snapshot { run with current_step := some s },
   Event.log run.id (LogKind.stepStarted s),
   Event.log run.id (LogKind.stepOutput s),
   Event.log run.id (LogKind.stepOK s)]

/-- The events of a list of steps that all pass their failure roll. -/
def passedEvents (run : Run) (steps : List String) : List Event :=
  steps.flatMap (stepCycle run)

/-- The events of the failing step and the failure epilogue: snapshot,
step-started and step-output lines, step-FAILED and run-finished lines,
terminal snapshot, history append. -/
def failEvents (run : Run) (s : String) (now : String) (elapsed : Int) :
    List Event :=
  [Event.snapshot { run with current_step := some s },
   Event.log run.id (LogKind.stepStarted s),
   Event.log run.id (LogKind.stepOutput s),
   Event.log run.id (LogKind.stepFailed s),
   Event.log run.id (LogKind.runFinished statusFailed),
   Event.snapshot (finishRun run statusFailed now elapsed),
   Event.histAppend (finishRun run statusFailed now elapsed)]

def isHistAppend : Event → Bool := fun e =>
  match e with
  | Event.histAppend _ => true
  | _ => false

def isStepStartedLog : Event → Bool := fun e =>
  match e with
  | Event.log _ (LogKind.stepStarted _) => true
  | _ => false

/-! Concrete sample inputs used by the witnesses, counterexamples and
worked examples. -/

/-- Sample run, failure oracle and clock readings used to instantiate the
engine theorems on concrete inputs. -/
def exRun : Run :=
  { id := "r1", job := "app-ci", status := statusRunning,
    steps := ["checkout", "unit-tests", "deploy-staging"],
    current_step := some ("checkout"), started_at := "t0",
    finished_at := none, duration_s := none }

def exRolls : Nat → Bool := fun j => decide (j = 1)

def exNow : String := "t9"

def exElapsed : Int := 3

def exRunB : Run :=
  { id := "r2", job := "api-ci", status := statusRunning,
    steps := fallbackSteps, current_step := none, started_at := "t1",
    finished_at := none, duration_s := none }

def jobApi : String := "api-ci"

def jobUnknown : String := "no-such-job"

def jobJ : String := "web"

/-- Sample window with 3 successes and 1 failure. -/
def exRatesHist : List HistEntry :=
  [{ job := jobJ, status := statusSuccess, finished_at := some 100,
     duration_s := some 10 },
   { job := jobJ, status := statusSuccess, finished_at := some 200,
     duration_s := some 10 },
   { job := jobJ, status := statusSuccess, finished_at := some 300,
     duration_s := some 10 },
   { job := jobJ, status := statusFailed, finished_at := some 400,
     duration_s := some 10 }]

/-- Sample window containing a zero duration and a nonzero duration. -/
def exAvgHist : List HistEntry :=
  [{ job := jobJ, status := statusSuccess, finished_at := some 100,
     duration_s := some 0 },
   { job := jobJ, status := statusSuccess, finished_at := some 200,
     duration_s := some 10 }]

/-- Sample history: one failed run and a later success of the same job,
5 minutes apart, both inside the window. -/
def exMttrHist : List HistEntry :=
  [{ job := jobJ, status := statusFailed, finished_at := some 1000,
     duration_s := some 30 },
   { job := jobJ, status := statusSuccess, finished_at := some 1300,
     duration_s := some 40 }]

/-! Bridging lemmas between the source-derived and spec-side
definitions. -/

lemma last7Of_eq_specWindow (hist : List HistEntry) (now : Int) :
    last7Of hist now = specWindow hist now := by
  unfold last7Of finishedOf specWindow
  rw [List.filter_filter]
  apply List.filter_congr
  intro x _
  cases h : x.finished_at <;> simp [h]

lemma mem_specWindow_finished {hist : List HistEntry} {now : Int}
    {h : HistEntry} (hm : h ∈ specWindow hist now) :
    ∃ t, h.finished_at = some t := by
  have := (List.mem_filter.mp hm).2
  cases ht : h.finished_at with
  | none => rw [ht] at this; simp at this
  | some t => exact ⟨t, rfl⟩

lemma filterMap_eq_map_filter {α β : Type} (p : α → Bool) (f : α → β)
    (g : α → Option β) (l : List α)
    (hpt : ∀ x ∈ l, g x = if p x then some (f x) else none) :
    l.filterMap g = (l.filter p).map f := by
  induction l with
  | nil => rfl
  | cons a t ih =>
    have ha := hpt a (by simp)
    have ht := ih fun x hx => hpt x (by simp [hx])
    by_cases hp : p a = true
    · simp [List.filterMap_cons, List.filter_cons, ha, hp, ht]
    · simp only [Bool.not_eq_true] at hp
      simp [List.filterMap_cons, List.filter_cons, ha, hp, ht]

lemma dsOf_eq_spec (hist : List HistEntry) (now : Int) :
    dsOf hist now = specDsPresentNonzero hist now := by
  unfold dsOf specDsPresentNonzero
  rw [last7Of_eq_specWindow]

lemma mttrsOf_eq_spec (hist : List HistEntry) (now : Int) :
    mttrsOf hist now = specRecoveryMinutes hist now := by
  unfold mttrsOf specRecoveryMinutes
  rw [last7Of_eq_specWindow]
  apply List.filterMap_congr
  intro h hm
  obtain ⟨tf, htf⟩ := mem_specWindow_finished hm
  rw [htf]
  simp only [Option.getD_some]
  by_cases hst : h.status = statusFailed
  · simp only [hst, if_pos rfl]
    have hinner :
        ((specWindow hist now).filterMap fun x =>
            match x.finished_at with
            | some ts =>
              if x.job = h.job ∧ x.status = statusSuccess ∧ tf < ts then some ts
              else none
            | none => none)
          = ((specWindow hist now).filter fun x =>
              x.job = h.job && x.finished_at.isSome
                && decide (tf < x.finished_at.getD 0)
                && x.status = statusSuccess).map
              fun x => x.finished_at.getD 0 := by
      apply filterMap_eq_map_filter
      intro x _
      cases hx : x.finished_at with
      | none => simp [hx]
      | some ts =>
        by_cases hcond : x.job = h.job ∧ x.status = statusSuccess ∧ tf < ts
        · simp [hx, hcond, hcond.1, hcond.2.1, hcond.2.2]
        · push_neg at hcond
          by_cases h1 : x.job = h.job
          · by_cases h2 : x.status = statusSuccess
            · have h3 := hcond h1 h2
              simp [hx, h1, h2, h3, if_neg]
            · simp [hx, h1, h2]
          · simp [hx, h1]
    rw [hinner]
  · simp [hst]

lemma passedEvents_update (run : Run) (s : String) (l : List String) :
    passedEvents { run with current_step := some s } l = passedEvents run l :=
  rfl

lemma failEvents_update (run : Run) (s t : String) (now : String)
    (elapsed : Int) :
    failEvents { run with current_step := some s } t now elapsed
      = failEvents run t now elapsed :=
  rfl

lemma finishRun_update (run : Run) (s st : String) (now : String)
    (elapsed : Int) :
    finishRun { run with current_step := some s } st now elapsed
      = finishRun run st now elapsed :=
  rfl

/-- If the failure roll at relative position `k` of `pending` is the
first one to come up true, the step loop performs exactly the passed
cycles for the first `k` steps, then the failure events of step `k`, and
returns the failed run. -/
lemma simSteps_fail (run : Run) (pending : List String) (k0 : Nat)
    (rolls : Nat → Bool) (now : String) (elapsed : Int) (k : Nat)
    (hk : k < pending.length) (hfail : rolls (k0 + k) = true)
    (hpre : ∀ j, j < k → rolls (k0 + j) = false) :
    simSteps run pending k0 rolls now elapsed
      = (finishRun run statusFailed now elapsed,
         passedEvents run (pending.take k)
           ++ failEvents run (pending.get ⟨k, hk⟩) now elapsed) := by
  induction pending generalizing run k0 k with
  | nil => exact absurd hk (by simp)
  | cons s rest ih =>
    cases k with
    | zero =>
      have h0 : rolls k0 = true := by simpa using hfail
      simp only [simSteps, h0, if_pos]
      simp [passedEvents, failEvents, finishRun_update]
    | succ j =>
      have h0 : rolls k0 = false := by simpa using hpre 0 (Nat.succ_pos j)
      have hk2 : j < rest.length := by simpa using hk
      have hfail2 : rolls (k0 + 1 + j) = true := by
        have : k0 + 1 + j = k0 + (j + 1) := by omega
        rw [this]; exact hfail
      have hpre2 : ∀ i, i < j → rolls (k0 + 1 + i) = false := by
        intro i hi
        have : k0 + 1 + i = k0 + (i + 1) := by omega
        rw [this]; exact hpre (i + 1) (by omega)
      simp only [simSteps, h0, Bool.false_eq_true, if_neg, not_false_iff]
      rw [ih { run with current_step := some s } (k0 + 1) j hk2 hfail2 hpre2]
      rfl

/-- The step loop always terminates in a terminal status, appends exactly
one history entry — the returned terminal run — and that append is the
very last event of the trace. -/
lemma simSteps_hist (run : Run) (pending : List String) (k0 : Nat)
    (rolls : Nat → Bool) (now : String) (elapsed : Int) :
    ((simSteps run pending k0 rolls now elapsed).1.status = statusSuccess ∨
      (simSteps run pending k0 rolls now elapsed).1.status = statusFailed) ∧
    (simSteps run pending k0 rolls now elapsed).2.filter isHistAppend
      = [Event.histAppend (simSteps run pending k0 rolls now elapsed).1] ∧
    (simSteps run pending k0 rolls now elapsed).2.getLast?
      = some (Event.histAppend (simSteps run pending k0 rolls now elapsed).1) := by
  induction pending generalizing run k0 with
  | nil =>
    refine ⟨Or.inl rfl, ?_, rfl⟩
    simp [simSteps, isHistAppend, List.filter]
  | cons s rest ih =>
    by_cases h0 : rolls k0 = true
    · simp only [simSteps, h0, if_pos]
      refine ⟨Or.inr rfl, ?_, rfl⟩
      simp [isHistAppend, List.filter]
    · simp only [Bool.not_eq_true] at h0
      obtain ⟨ihstat, ihfilt, ihlast⟩ := ih { run with current_step := some s } (k0 + 1)
      have hne : (simSteps { run with current_step := some s } rest (k0 + 1)
          rolls now elapsed).2 ≠ [] := by
        intro he
        rw [he] at ihlast
        simp at ihlast
      refine ⟨?_, ?_, ?_⟩
      · simpa only [simSteps, h0, Bool.false_eq_true, if_neg, not_false_iff]
          using ihstat
      · simp only [simSteps, h0, Bool.false_eq_true, if_neg, not_false_iff]
        simp only [List.filter_append, List.filter_cons, List.filter_nil]
        simpa [isHistAppend] using ihfilt
      · simp only [simSteps, h0, Bool.false_eq_true, if_neg, not_false_iff]
        rw [List.append_assoc, List.getLast?_append]
        rw [List.getLast?_append]
        rw [ihlast]
        rfl

lemma countP_stepStarted_passedEvents (run : Run) (l : List String) :
    (passedEvents run l).countP isStepStartedLog = l.length := by
  induction l with
  | nil => rfl
  | cons s t ih =>
    have hc : passedEvents run (s :: t) = stepCycle run s ++ passedEvents run t := by
      simp [passedEvents]
    rw [hc, List.countP_append, ih]
    have h1 : List.countP isStepStartedLog (stepCycle run s) = 1 := rfl
    rw [h1]
    simp [Nat.add_comm]

/-- C2: a run whose step at position `k` is the first to fail its
failure roll ends with `status=failed`, `finished_at` and `duration_s`
set and `current_step` cleared (`finishRun`), its trace is exactly the
run-started line, the passed cycles of steps `0..k-1`, and the failure
events of step `k` (ending in a snapshot persist and a history append),
and exactly `k+1` steps ever start — no step after position `k`
executes. -/
theorem failing_step_stops_run (run : Run) (rolls : Nat → Bool)
    (now : String) (elapsed : Int) (k : Nat) (hk : k < run.steps.length)
    (hfail : rolls k = true) (hpre : ∀ j, j < k → rolls j = false) :
    simulate_pipeline run rolls now elapsed
      = (finishRun run statusFailed now elapsed,
         Event.log run.id LogKind.runStarted ::
           (passedEvents run (run.steps.take k)
             ++ failEvents run (run.steps.get ⟨k, hk⟩) now elapsed)) ∧
    (simulate_pipeline run rolls now elapsed).2.countP isStepStartedLog
      = k + 1 := by
  have h := simSteps_fail run run.steps 0 rolls now elapsed k hk
    (by simpa using hfail) (fun j hj => by simpa using hpre j hj)
  have htrace : simulate_pipeline run rolls now elapsed
      = (finishRun run statusFailed now elapsed,
         Event.log run.id LogKind.runStarted ::
           (passedEvents run (run.steps.take k)
             ++ failEvents run (run.steps.get ⟨k, hk⟩) now elapsed)) := by
    unfold simulate_pipeline
    rw [h]
  refine ⟨htrace, ?_⟩
  rw [htrace]
  show (Event.log run.id LogKind.runStarted ::
    (passedEvents run (run.steps.take k)
      ++ failEvents run (run.steps.get ⟨k, hk⟩) now elapsed)).countP
      isStepStartedLog = k + 1
  rw [List.countP_cons, List.countP_append,
      countP_stepStarted_passedEvents]
  have hlen : (run.steps.take k).length = k := by
    rw [List.length_take]
    omega
  have hfe : (failEvents run (run.steps.get ⟨k, hk⟩) now elapsed).countP
      isStepStartedLog = 1 := rfl
  rw [hlen, hfe]
  rfl

/-- C2 witness: a concrete 3-step run whose second step fails. -/
theorem failing_step_stops_run_witness :
    simulate_pipeline exRun exRolls exNow exElapsed
      = (finishRun exRun statusFailed exNow exElapsed,
         Event.log exRun.id LogKind.runStarted ::
           (passedEvents exRun (exRun.steps.take 1)
             ++ failEvents exRun (exRun.steps.get ⟨1, by decide⟩) exNow
                 exElapsed)) ∧
    (simulate_pipeline exRun exRolls exNow exElapsed).2.countP
      isStepStartedLog = 1 + 1 :=
  failing_step_stops_run exRun exRolls exNow exElapsed 1 (by decide)
    (by decide) (by decide)

/-- C3: every driven run terminates with status `success` or `failed`,
its trace contains exactly one history append — of the terminal run
state —, that append is the very last event (the moment of terminal
transition), and no history append ever carries status `running`. -/
theorem history_appended_exactly_once (run : Run) (rolls : Nat → Bool)
    (now : String) (elapsed : Int) :
    (simulate_pipeline run rolls now elapsed).2.filter isHistAppend
      = [Event.histAppend (simulate_pipeline run rolls now elapsed).1] ∧
    ((simulate_pipeline run rolls now elapsed).1.status = statusSuccess ∨
      (simulate_pipeline run rolls now elapsed).1.status = statusFailed) ∧
    (simulate_pipeline run rolls now elapsed).2.getLast?
      = some (Event.histAppend (simulate_pipeline run rolls now elapsed).1) ∧
    ∀ r, Event.histAppend r ∈ (simulate_pipeline run rolls now elapsed).2 →
      r.status ≠ statusRunning := by
  obtain ⟨hstat, hfilt, hlast⟩ := simSteps_hist run run.steps 0 rolls now elapsed
  have h2 : (simulate_pipeline run rolls now elapsed).2
      = Event.log run.id LogKind.runStarted
          :: (simSteps run run.steps 0 rolls now elapsed).2 := rfl
  have h1 : (simulate_pipeline run rolls now elapsed).1
      = (simSteps run run.steps 0 rolls now elapsed).1 := rfl
  have hfilt2 : (simulate_pipeline run rolls now elapsed).2.filter isHistAppend
      = [Event.histAppend (simulate_pipeline run rolls now elapsed).1] := by
    rw [h2, h1, List.filter_cons]
    simpa [isHistAppend] using hfilt
  refine ⟨hfilt2, ?_, ?_, ?_⟩
  · rw [h1]; exact hstat
  · rw [h2, h1]
    have : Event.log run.id LogKind.runStarted
        :: (simSteps run run.steps 0 rolls now elapsed).2
        = [Event.log run.id LogKind.runStarted]
          ++ (simSteps run run.steps 0 rolls now elapsed).2 := rfl
    rw [this, List.getLast?_append, hlast]
    rfl
  · intro r hr
    have hrmem : Event.histAppend r
        ∈ (simulate_pipeline run rolls now elapsed).2.filter isHistAppend :=
      List.mem_filter.mpr ⟨hr, by simp [isHistAppend]⟩
    rw [hfilt2] at hrmem
    have hreq : r = (simulate_pipeline run rolls now elapsed).1 := by
      simpa using hrmem
    rw [hreq, h1]
    rcases hstat with hs | hs <;>
      · rw [hs]
        simp [statusSuccess, statusFailed, statusRunning]

/-- C7: computing stats over an empty history returns the all-zero
metrics record; it is a total function, not an error. -/
theorem calc_stats_empty_history (now : Int) :
    calc_stats [] now
      = { deploys_today := 0, success_rate := 0, cfr := 0, avg_duration := 0,
          mttr_minutes := 0 } :=
  rfl

/-- C8: step-sequence selection is total — catalog jobs get their
configured sequence, any other job name gets the fixed 3-step fallback,
never an error. -/
theorem steps_for_never_fails :
    (∀ j s, pipelineSteps j = some s → stepsFor j = s) ∧
    (∀ j, pipelineSteps j = none → stepsFor j = fallbackSteps) := by
  constructor
  · intro j s h
    simp [stepsFor, h]
  · intro j h
    simp [stepsFor, h]

/-- C8 witness: a catalog job and an unknown job, both resolved. -/
theorem steps_for_never_fails_witness :
    stepsFor jobApi
      = ["checkout", "install-deps", "unit-tests", "integration-tests",
         "security-scan", "docker-build", "deploy-prod"] ∧
    stepsFor jobUnknown = fallbackSteps :=
  ⟨steps_for_never_fails.1 jobApi _ (by decide),
   steps_for_never_fails.2 jobUnknown (by decide)⟩

/-- C10: a missing body, a missing `job` field, and an empty-string job
name all select the default job `app-ci`, whose configured 6-step
sequence is used — not the unknown-job fallback. -/
theorem default_job_app_ci :
    jobFromRequest none = "app-ci" ∧
    jobFromRequest (some none) = "app-ci" ∧
    jobFromRequest (some (some (""))) = "app-ci" ∧
    apiRunSteps none
      = ["checkout", "install-deps", "lint", "unit-tests", "build-artifact",
         "deploy-staging"] ∧
    apiRunSteps (some none) = apiRunSteps none ∧
    apiRunSteps (some (some (""))) = apiRunSteps none := by
  refine ⟨rfl, rfl, ?_, ?_, rfl, ?_⟩ <;> decide

lemma save_current_snapshot_eq (run : Run) (curr : List Run) :
    save_current_snapshot run curr
      = run :: ((curr.filter fun x => x.id ≠ run.id).take 99) :=
  rfl

/-- The upsert preserves distinctness of ids. -/
lemma save_current_nodup (run : Run) (curr : List Run)
    (hnd : (curr.map Run.id).Nodup) :
    ((save_current_snapshot run curr).map Run.id).Nodup := by
  rw [save_current_snapshot_eq]
  simp only [List.map_cons, List.nodup_cons]
  constructor
  · intro hmem
    obtain ⟨x, hx, hxid⟩ := List.mem_map.mp hmem
    have hx2 : x ∈ curr.filter fun y => y.id ≠ run.id :=
      List.take_subset _ _ hx
    have hx3 := (List.mem_filter.mp hx2).2
    simp at hx3
    exact hx3 hxid
  · have hsub : List.Sublist
        (((curr.filter fun x => x.id ≠ run.id).take 99).map Run.id)
        (curr.map Run.id) :=
      List.Sublist.map _ ((List.take_sublist _ _).trans (List.filter_sublist _))
    exact hsub.nodup hnd

/-- Every state the current-runs list can actually be in has
pairwise-distinct ids. -/
lemma reachableCurr_nodup (curr : List Run) (h : ReachableCurr curr) :
    (curr.map Run.id).Nodup := by
  induction h with
  | empty => simp
  | upsert run curr _ ih => exact save_current_nodup run curr ih

/-- C4: upserting a run into any reachable current-runs list state
yields a list of at most 100 entries with pairwise-distinct ids, whose
first entry is the given run; any entry carrying the run's id is the run
itself (the prior entry with that id was replaced). -/
theorem upsert_bounded_dedup_front (run : Run) (curr : List Run)
    (hreach : ReachableCurr curr) :
    (save_current_snapshot run curr).length ≤ 100 ∧
    ((save_current_snapshot run curr).map Run.id).Nodup ∧
    (save_current_snapshot run curr).head? = some run ∧
    (∀ x ∈ save_current_snapshot run curr, x.id = run.id → x = run) := by
  refine ⟨?_, save_current_nodup run curr (reachableCurr_nodup curr hreach),
    ?_, ?_⟩ <;> rw [save_current_snapshot_eq]
  · simp only [List.length_cons, List.length_take]
    omega
  · rfl
  · intro x hx hid
    rcases List.mem_cons.mp hx with h | h
    · exact h
    · have hx2 : x ∈ curr.filter fun y => y.id ≠ run.id :=
        List.take_subset _ _ h
      have hx3 := (List.mem_filter.mp hx2).2
      simp at hx3
      exact absurd hid hx3

/-- C4 witness: upserting into the reachable one-entry list produced by
upserting into the empty state. -/
theorem upsert_bounded_dedup_front_witness :
    (save_current_snapshot exRun [exRunB]).length ≤ 100 ∧
    ((save_current_snapshot exRun [exRunB]).map Run.id).Nodup ∧
    (save_current_snapshot exRun [exRunB]).head? = some exRun ∧
    (∀ x ∈ save_current_snapshot exRun [exRunB], x.id = exRun.id →
      x = exRun) :=
  upsert_bounded_dedup_front exRun [exRunB]
    (ReachableCurr.upsert exRunB [] ReachableCurr.empty)

/-- C9: the frame of an upsert — the result is the run followed by the
first 99 entries of the old list with the run's id filtered out, so
retained entries are unchanged and keep their relative order, only
matching-id entries are removed, and only entries beyond the cap are
evicted. -/
theorem upsert_frame (run : Run) (curr : List Run) :
    save_current_snapshot run curr
      = run :: ((curr.filter fun x => x.id ≠ run.id).take 99) ∧
    (save_current_snapshot run curr).tail.Sublist curr ∧
    (∀ x ∈ (save_current_snapshot run curr).tail, x.id ≠ run.id) ∧
    (curr.filter fun x => x.id ≠ run.id)
      = (save_current_snapshot run curr).tail
          ++ (curr.filter fun x => x.id ≠ run.id).drop 99 := by
  rw [save_current_snapshot_eq]
  refine ⟨rfl, ?_, ?_, ?_⟩
  · exact (List.take_sublist _ _).trans (List.filter_sublist _)
  · intro x hx
    have hx2 : x ∈ curr.filter fun y => y.id ≠ run.id :=
      List.take_subset _ _ hx
    have hx3 := (List.mem_filter.mp hx2).2
    simpa using hx3
  · exact (List.take_append_drop 99 _).symm

/-! Projection lemmas for the non-empty branch of `_calc_stats`. -/

lemma calc_stats_success_rate_eq (hist : List HistEntry) (now : Int)
    (hh : hist ≠ []) :
    (calc_stats hist now).success_rate
      = if (last7Of hist now).length = 0 then 0
        else pyRound1
          ((((last7Of hist now).filter fun h =>
              h.status = statusSuccess).length : ℚ)
            / ((last7Of hist now).length : ℚ) * 100) := by
  rw [calc_stats, if_neg hh]

lemma calc_stats_cfr_eq (hist : List HistEntry) (now : Int)
    (hh : hist ≠ []) :
    (calc_stats hist now).cfr
      = if (last7Of hist now).length = 0 then 0
        else pyRound1
          ((((last7Of hist now).filter fun h =>
              h.status = statusFailed).length : ℚ)
            / ((last7Of hist now).length : ℚ) * 100) := by
  rw [calc_stats, if_neg hh]

lemma calc_stats_avg_eq (hist : List HistEntry) (now : Int)
    (hh : hist ≠ []) :
    (calc_stats hist now).avg_duration
      = if dsOf hist now = [] then 0
        else pyInt (((dsOf hist now).sum : ℚ)
          / ((dsOf hist now).length : ℚ)) := by
  rw [calc_stats, if_neg hh]

lemma calc_stats_mttr_eq (hist : List HistEntry) (now : Int)
    (hh : hist ≠ []) :
    (calc_stats hist now).mttr_minutes
      = if mttrsOf hist now = [] then 0
        else pyInt ((mttrsOf hist now).sum
          / ((mttrsOf hist now).length : ℚ)) := by
  rw [calc_stats, if_neg hh]

lemma pyInt_intCast (n : ℤ) : pyInt (n : ℚ) = n := by
  simp [pyInt]

lemma pyRoundHalfEven_intCast (n : ℤ) : pyRoundHalfEven (n : ℚ) = n := by
  simp [pyRoundHalfEven]

lemma pyRound1_intCast (n : ℤ) : pyRound1 (n : ℚ) = (n : ℚ) := by
  unfold pyRound1
  have h : (10 : ℚ) * (n : ℚ) = ((10 * n : ℤ) : ℚ) := by push_cast; ring
  rw [h, pyRoundHalfEven_intCast]
  push_cast
  ring

/-- C6: `success_rate` is successes over window total times 100 rounded
to one decimal, `cfr` likewise for failures, both 0 on an empty window;
3 successes and 1 failure give 75.0 and 25.0. -/
theorem success_and_failure_rates_spec :
    (∀ (hist : List HistEntry) (now : Int),
        (calc_stats hist now).success_rate
          = (if (specWindow hist now).length = 0 then 0
             else pyRound1
               ((((specWindow hist now).countP fun h =>
                   h.status = statusSuccess) : ℚ)
                 / ((specWindow hist now).length : ℚ) * 100)) ∧
        (calc_stats hist now).cfr
          = (if (specWindow hist now).length = 0 then 0
             else pyRound1
               ((((specWindow hist now).countP fun h =>
                   h.status = statusFailed) : ℚ)
                 / ((specWindow hist now).length : ℚ) * 100))) ∧
    (calc_stats exRatesHist 500).success_rate = 75 ∧
    (calc_stats exRatesHist 500).cfr = 25 := by
  have h7 : last7Of exRatesHist 500 = exRatesHist := by decide
  have hl : exRatesHist.length = 4 := by decide
  refine ⟨?_, ?_, ?_⟩
  · intro hist now
    by_cases hh : hist = []
    · subst hh
      exact ⟨rfl, rfl⟩
    · rw [calc_stats_success_rate_eq hist now hh, calc_stats_cfr_eq hist now hh,
          last7Of_eq_specWindow]
      constructor <;>
        · rw [List.countP_eq_length_filter]
  · rw [calc_stats_success_rate_eq exRatesHist 500 (by decide), h7]
    have hs : (exRatesHist.filter fun h => h.status = statusSuccess).length = 3 := by
      decide
    rw [hs, hl]
    norm_num
    have h75 : (75 : ℚ) = ((75 : ℤ) : ℚ) := by norm_num
    rw [h75, pyRound1_intCast]
  · rw [calc_stats_cfr_eq exRatesHist 500 (by decide), h7]
    have hf : (exRatesHist.filter fun h => h.status = statusFailed).length = 1 := by
      decide
    rw [hf, hl]
    norm_num
    have h25 : (25 : ℚ) = ((25 : ℤ) : ℚ) := by norm_num
    rw [h25, pyRound1_intCast]

/-- C5 counterexample: with window durations 0 and 10 the claimed
zero-inclusive mean is 5, but the source's Python-truthiness guard drops
the zero and `avg_duration` is 10. -/
theorem avg_duration_zero_excluded_counterexample :
    (calc_stats exAvgHist 500).avg_duration = 10 ∧
    specAvgInclZero exAvgHist 500 = 5 ∧
    (calc_stats exAvgHist 500).avg_duration ≠ specAvgInclZero exAvgHist 500 := by
  have h10 : (calc_stats exAvgHist 500).avg_duration = 10 := by
    rw [calc_stats_avg_eq exAvgHist 500 (by decide)]
    have hds : dsOf exAvgHist 500 = [10] := by decide
    rw [hds, if_neg (by simp : ([10] : List ℤ) ≠ [])]
    have hsum : List.sum [(10 : ℤ)] = 10 := by decide
    have hlen : List.length [(10 : ℤ)] = 1 := by decide
    rw [hsum, hlen]
    have hx : ((10 : ℤ) : ℚ) / ((1 : ℕ) : ℚ) = ((10 : ℤ) : ℚ) := by norm_num
    rw [hx, pyInt_intCast]
  have h5 : specAvgInclZero exAvgHist 500 = 5 := by
    unfold specAvgInclZero
    have hds : specDsInclZero exAvgHist 500 = [0, 10] := by decide
    rw [hds, if_neg (by simp : ([0, 10] : List ℤ) ≠ [])]
    have hsum : List.sum [(0 : ℤ), 10] = 10 := by decide
    have hlen : List.length [(0 : ℤ), 10] = 2 := by decide
    rw [hsum, hlen]
    have hx : ((10 : ℤ) : ℚ) / ((2 : ℕ) : ℚ) = ((5 : ℤ) : ℚ) := by norm_num
    rw [hx, pyInt_intCast]
  exact ⟨h10, h5, by rw [h10, h5]; decide⟩

/-- C5 amended: `avg_duration` is the integer mean of `duration_s` over
window entries whose duration is present and nonzero (zero durations are
excluded by the truthiness guard), 0 if there are none. -/
theorem avg_duration_present_nonzero_mean (hist : List HistEntry)
    (now : Int) :
    (calc_stats hist now).avg_duration
      = if specDsPresentNonzero hist now = [] then 0
        else pyInt (((specDsPresentNonzero hist now).sum : ℚ)
          / ((specDsPresentNonzero hist now).length : ℚ)) := by
  by_cases hh : hist = []
  · subst hh
    rfl
  · rw [calc_stats_avg_eq hist now hh, dsOf_eq_spec]

/-- C1: whenever some failed run has a later-finishing same-job success
in the window, `mttr_minutes` is the integer mean of the per-failure
recovery times — minutes from each failure's finish to the earliest
later same-job success, failures without one excluded — and the single
5-minute recovery example yields 5. -/
theorem mttr_minutes_spec :
    (∀ (hist : List HistEntry) (now : Int),
        specRecoveryMinutes hist now ≠ [] →
        (calc_stats hist now).mttr_minutes
          = pyInt ((specRecoveryMinutes hist now).sum
              / ((specRecoveryMinutes hist now).length : ℚ))) ∧
    (calc_stats exMttrHist 2000).mttr_minutes = 5 := by
  constructor
  · intro hist now hne
    have hh : hist ≠ [] := by
      intro he
      apply hne
      rw [he]
      rfl
    rw [calc_stats_mttr_eq hist now hh, mttrsOf_eq_spec, if_neg hne]
  · rw [calc_stats_mttr_eq exMttrHist 2000 (by decide)]
    have hm : mttrsOf exMttrHist 2000 = [((1300 - 1000 : ℤ) : ℚ) / 60] := rfl
    rw [hm, if_neg (by simp : ([((1300 - 1000 : ℤ) : ℚ) / 60] : List ℚ) ≠ [])]
    have hx : List.sum [((1300 - 1000 : ℤ) : ℚ) / 60]
        / ((List.length [((1300 - 1000 : ℤ) : ℚ) / 60] : ℕ) : ℚ)
        = ((5 : ℤ) : ℚ) := by
      simp only [List.sum_cons, List.sum_nil, List.length_cons, List.length_nil]
      norm_num
    rw [hx, pyInt_intCast]

/-- C1 witness: the general part applied to the 5-minute example. -/
theorem mttr_minutes_spec_witness :
    (calc_stats exMttrHist 2000).mttr_minutes
      = pyInt ((specRecoveryMinutes exMttrHist 2000).sum
          / ((specRecoveryMinutes exMttrHist 2000).length : ℚ)) :=
  mttr_minutes_spec.1 exMttrHist 2000 (by decide)


/-- C3 witness: the single-append guarantee on a concrete run. -/
theorem history_appended_exactly_once_witness :
    (simulate_pipeline exRun exRolls exNow exElapsed).2.filter isHistAppend
      = [Event.histAppend (simulate_pipeline exRun exRolls exNow exElapsed).1] ∧
    ((simulate_pipeline exRun exRolls exNow exElapsed).1.status = statusSuccess ∨
      (simulate_pipeline exRun exRolls exNow exElapsed).1.status = statusFailed) ∧
    (simulate_pipeline exRun exRolls exNow exElapsed).2.getLast?
      = some (Event.histAppend
          (simulate_pipeline exRun exRolls exNow exElapsed).1) ∧
    (∀ r, Event.histAppend r
        ∈ (simulate_pipeline exRun exRolls exNow exElapsed).2 →
      r.status ≠ statusRunning) :=
  history_appended_exactly_once exRun exRolls exNow exElapsed

/-- C9 witness: the upsert frame on a concrete one-entry list. -/
theorem upsert_frame_witness :
    save_current_snapshot exRun [exRunB]
      = exRun :: (([exRunB].filter fun x => x.id ≠ exRun.id).take 99) ∧
    (save_current_snapshot exRun [exRunB]).tail.Sublist [exRunB] ∧
    (∀ x ∈ (save_current_snapshot exRun [exRunB]).tail, x.id ≠ exRun.id) ∧
    ([exRunB].filter fun x => x.id ≠ exRun.id)
      = (save_current_snapshot exRun [exRunB]).tail
          ++ ([exRunB].filter fun x => x.id ≠ exRun.id).drop 99 :=
  upsert_frame exRun [exRunB]
